import Mathlib

/-!
# Verification of the lrmr worker-side execution and shuffle substrate

A shallow embedding of the worker server (`Worker.PushData`, `Worker.CreateTasks`,
`Worker.createTask`, `Worker.newOutputWriter`, `Worker.Start`) and the node
manager (`manager.List`, `manager.UnregisterNode`, `manager.Close`) of the
`lrmr` repository, together with proofs about the embedded operations.

Go strings are modelled as `List Char` where character-level structure matters
(host/port splitting) and as `String` elsewhere. Concurrency is rendered as
explicit state passing: environment outcomes (coordinator results, dial
results, stream contents, the terminal state an executor reaches) are
parameters of the embedded functions, and the order of observable actions is
recorded in an event trace.
-/

namespace Lrmr

/-- gRPC status codes used by the worker. A Go error without an attached
status code surfaces at the RPC boundary as `Unknown`. -/
inductive GrpcCode
  | ok
  | invalidArgument
  | internal
  | unavailable
  | unknown
  deriving DecidableEq, Repr

/-- Executor lifecycle states (spec section 4.E). -/
inductive ExecState
  | pending
  | running
  | succeeded
  | failed
  deriving DecidableEq, Repr

/-- A state is terminal iff it is `succeeded` or `failed`. -/
def ExecState.isTerminal : ExecState → Bool
  | .succeeded => true
  | .failed => true
  | _ => false

/-- A row: opaque payload plus routing key (`lrdd.Row`). -/
structure Row where
  key : String
  value : String
  deriving DecidableEq, Repr

/-- Task executor as visible to the worker server: its input queue and its
lifecycle state (`TaskExecutor` with fields `Input`, `context`). -/
structure TaskExecutor where
  input : List Row
  state : ExecState
  deriving DecidableEq, Repr

/-- Worker state relevant to the embedded RPCs: the running-tasks registry
(`Worker.runningTasks`, a task-reference-keyed map, modelled as an
association list with unique keys) and the advertised host of this worker
(`Worker.nodeManager.Self().Host`). -/
structure WorkerState where
  runningTasks : List (String × TaskExecutor)
  selfHost : String
  deriving DecidableEq, Repr

/-- `Worker.getRunningTask`: registry lookup under the read lock. -/
def getRunningTask (w : WorkerState) (taskID : String) : Option TaskExecutor :=
  (w.runningTasks.find? (fun p => p.1 = taskID)).map Prod.snd

/-- `delete(w.runningTasks, taskID)` under the write lock. -/
def removeRunningTask (w : WorkerState) (taskID : String) : WorkerState :=
  { w with runningTasks := w.runningTasks.filter (fun p => p.1 ≠ taskID) }

/-- Registering an executor in the running-tasks registry
(`w.runningTasks[task.Reference().String()] = exec`). -/
def putRunningTask (w : WorkerState) (taskID : String) (e : TaskExecutor) :
    WorkerState :=
  { w with runningTasks :=
      (w.runningTasks.filter (fun p => p.1 ≠ taskID)) ++ [(taskID, e)] }

/-- Stream header carried as metadata (`lrmrpb.DataHeader`). -/
structure DataHeader where
  taskID : String
  fromHost : String
  deriving DecidableEq, Repr

/-- Everything the inbound push stream supplies to `Worker.PushData`:
the parse result of the header metadata (`none` = missing/malformed),
the row batches of the stream body, and whether dispatching the batches
into the executor input fails (stream receive / context error). -/
structure PushStreamInput where
  header : Option DataHeader
  batches : List Row
  dispatchErr : Bool
  deriving DecidableEq, Repr

/-- Observable actions of a `PushData` invocation, in program order. -/
inductive PushEvent
  | headerRejected
  | taskNotFound (taskID : String)
  | dispatched (rows : List Row)
  | dispatchFailed
  | waitedTerminal (s : ExecState)
  | ackSent
  | removedEntry (taskID : String)
  deriving DecidableEq, Repr

/-- Result of a `PushData` invocation as seen by the caller. -/
inductive PushOutcome
  | ack
  | errInvalidArgument (msg : String)
  | errDispatch
  deriving DecidableEq, Repr

/-- One full run of `PushData`: caller-visible outcome, post state, trace. -/
structure PushRun where
  outcome : PushOutcome
  post : WorkerState
  events : List PushEvent
  deriving DecidableEq, Repr

/-- `Worker.PushData`. Control flow of the source, sequentialised:
parse header (fail → `InvalidArgument`); look up the executor (absent →
`InvalidArgument`, no state change); defer removal of the registry entry;
dispatch the stream batches into the executor input (error → return the
error, the deferred removal still runs); wait for the executor to reach a
terminal state (`term` is the state `exec.WaitForFinish` observes); send
the empty acknowledgement; the deferred removal runs before returning. -/
def pushData (w : WorkerState) (s : PushStreamInput) (term : ExecState) :
    PushRun :=
  match s.header with
  | none =>
      { outcome := .errInvalidArgument "malformed header metadata"
        post := w
        events := [.headerRejected] }
  | some h =>
      match getRunningTask w h.taskID with
      | none =>
          { outcome := .errInvalidArgument ("task not found: " ++ h.taskID)
            post := w
            events := [.taskNotFound h.taskID] }
      | some exec =>
          if s.dispatchErr then
            { outcome := .errDispatch
              post := removeRunningTask w h.taskID
              events := [.dispatchFailed, .removedEntry h.taskID] }
          else
            let fed : TaskExecutor :=
              { exec with input := exec.input ++ s.batches, state := term }
            { outcome := .ack
              post := removeRunningTask
                (putRunningTask w h.taskID fed) h.taskID
              events := [.dispatched s.batches, .waitedTerminal term,
                         .ackSent, .removedEntry h.taskID] }

/-! ## CreateTasks (`Worker.CreateTasks`, `Worker.createTask`, `Worker.newOutputWriter`) -/

/-- An error returned by a worker RPC handler: either a `status.Error` with
an explicit gRPC code, or a plain Go error without a status code (wrapped
with `errors.Wrap`); the gRPC layer surfaces a plain error as `Unknown`. -/
inductive WorkerErr
  | statusErr (code : GrpcCode) (msg : String)
  | plainErr (msg : String)
  deriving DecidableEq, Repr

/-- The gRPC code a returned error surfaces with. -/
def WorkerErr.grpcCode : WorkerErr → GrpcCode
  | .statusErr c _ => c
  | .plainErr _ => .unknown

/-- `path.Join(jobID, stageName, partitionID)`: the canonical task
reference string `jobID/stageName/partitionID`. -/
def taskIDPath (jobID stageName partitionID : String) : String :=
  jobID ++ "/" ++ stageName ++ "/" ++ partitionID

/-- A per-destination sink built by `Worker.newOutputWriter`: either a local
pipe into a co-located executor's input (`NewLocalPipe(t.Input)`) or a
buffered remote push stream
(`NewBufferedOutput(NewPushStream(...), opt.Output.BufferLength)`). -/
inductive Sink
  | localPipe (targetTaskID : String)
  | bufferedPushStream (host : String) (targetTaskID : String) (bufLen : Nat)
  deriving DecidableEq, Repr

/-- Environment outcomes consulted while creating one task: the result of
the coordinator transaction persisting the task (`jobManager.CreateTask`),
the result of dialing a push stream to `(host, taskID)`
(`output.NewPushStream`), the result of constructing the executor
(`NewTaskExecutor`), and the result of reporting a construction failure
(`jobReporter.ReportFailure`). `none` means success. -/
structure TaskEnv where
  persistErr : Option String
  dialErr : String → String → Option String
  executorCtorErr : Option String
  reportFailureErr : Option String

/-- Per-worker configuration consulted by `createTask`
(`opt.Output.BufferLength`). -/
structure WorkerOpts where
  outputBufferLength : Nat
  deriving DecidableEq, Repr

/-- The loop body of `Worker.newOutputWriter`: for each `(partitionID,
host)` entry of the request's partition map, compute the downstream task ID
`path.Join(jobID, cur.Output.Stage, id)`; when the host is this worker's own
advertised host and that downstream task is registered in the running-tasks
registry, use a local pipe; otherwise open a push stream (a dial failure
aborts the whole construction) and wrap it in a buffered output of capacity
`opt.Output.BufferLength`. -/
def buildSinks (w : WorkerState) (opt : WorkerOpts) (env : TaskEnv)
    (jobID outputStage : String) :
    List (String × String) → Except String (List (String × Sink))
  | [] => .ok []
  | (id, host) :: rest =>
      let taskID := taskIDPath jobID outputStage id
      if host = w.selfHost ∧ (getRunningTask w taskID).isSome then
        (buildSinks w opt env jobID outputStage rest).map
          (fun sinks => (id, Sink.localPipe taskID) :: sinks)
      else
        match env.dialErr host taskID with
        | some e => .error e
        | none =>
            (buildSinks w opt env jobID outputStage rest).map
              (fun sinks =>
                (id, Sink.bufferedPushStream host taskID
                       opt.outputBufferLength) :: sinks)

/-- The sink map of the writer built by `Worker.newOutputWriter`
(`output.NewWriter` additionally wraps the map with the stage's output
partitioner, which the properties below do not touch). -/
def newOutputWriter (w : WorkerState) (opt : WorkerOpts) (env : TaskEnv)
    (jobID outputStage : String) (partitionToHost : List (String × String)) :
    Except String (List (String × Sink)) :=
  buildSinks w opt env jobID outputStage partitionToHost

/-- The fields of a `CreateTasksRequest` the embedded handler reads: the job
ID, the unmarshalled stage's name and downstream stage name, the partition
IDs to create, and the request output plan's partition-to-host map. -/
structure CreateTasksRequest where
  jobID : String
  stageName : String
  outputStageName : String
  partitionIDs : List String
  partitionToHost : List (String × String)
  deriving DecidableEq, Repr

/-- A freshly constructed executor (`NewTaskExecutor` with a new empty
input reader): no rows yet, not yet running. -/
def newExecutor : TaskExecutor :=
  { input := [], state := .pending }

/-- `Worker.createTask` for one partition: persist the task via the
coordinator (failure → `Internal`); build the output writer (failure →
`Internal`); construct the executor (failure → the error is wrapped with
`errors.Wrap` and returned without a status code, after reporting the
failure — a failing report returns the report error instead); on success
record the executor in the running-tasks registry under
`task.Reference().String()` and start it. -/
def createTask (w : WorkerState) (opt : WorkerOpts) (env : TaskEnv)
    (req : CreateTasksRequest) (partitionID : String) :
    Except WorkerErr WorkerState :=
  match env.persistErr with
  | some e => .error (.statusErr .internal ("create task failed: " ++ e))
  | none =>
      match buildSinks w opt env req.jobID req.outputStageName
              req.partitionToHost with
      | .error e =>
          .error (.statusErr .internal ("unable to create output: " ++ e))
      | .ok _sinks =>
          match env.executorCtorErr with
          | some e =>
              match env.reportFailureErr with
              | some re => .error (.plainErr re)
              | none => .error (.plainErr ("failed to start executor: " ++ e))
          | none =>
              .ok (putRunningTask w
                     (taskIDPath req.jobID req.stageName partitionID)
                     newExecutor)

/-- The gRPC code of a `createTask` result (`none` when it succeeded). -/
def createTaskErrCode (r : Except WorkerErr WorkerState) : Option GrpcCode :=
  match r with
  | .error e => some e.grpcCode
  | .ok _ => none

/-- Request-level environment of `Worker.CreateTasks`: the stage JSON
unmarshal result, the broadcast deserialization result, and each
partition's task-creation environment. -/
structure CreateEnv where
  stageParseErr : Option String
  broadcastsErr : Option String
  perPartition : String → TaskEnv

/-- The errgroup body of `Worker.CreateTasks`, sequentialised: every
partition's `createTask` runs (a failing partition does not abort the
others), the first error is kept, and registry updates of successful
partitions persist. -/
def createTasksLoop (opt : WorkerOpts) (perPartition : String → TaskEnv)
    (req : CreateTasksRequest) :
    WorkerState → List String → Option WorkerErr × WorkerState
  | w, [] => (none, w)
  | w, pid :: rest =>
      match createTask w opt (perPartition pid) req pid with
      | .ok w2 => createTasksLoop opt perPartition req w2 rest
      | .error e =>
          let r := createTasksLoop opt perPartition req w rest
          (some e, r.2)

/-- `Worker.CreateTasks`: unmarshal the stage JSON (failure →
`InvalidArgument`), deserialize the broadcasts (failure →
`InvalidArgument`), then run `createTask` for every partition ID in an
errgroup and return the first error, or the empty acknowledgement when all
partitions succeeded. -/
def createTasks (w : WorkerState) (opt : WorkerOpts) (env : CreateEnv)
    (req : CreateTasksRequest) : Option WorkerErr × WorkerState :=
  match env.stageParseErr with
  | some e => (some (.statusErr .invalidArgument ("invalid stage JSON: " ++ e)), w)
  | none =>
      match env.broadcastsErr with
      | some e => (some (.statusErr .invalidArgument e), w)
      | none => createTasksLoop opt env.perPartition req w req.partitionIDs

/-! ## Advertised-host resolution (`Worker.Start`) -/

/-- `strings.Split(s, ":")` on the character-list model of Go strings:
splits around every separator occurrence; always returns at least one
(possibly empty) fragment. -/
def splitOnChar (c : Char) : List Char → List (List Char)
  | [] => [[]]
  | x :: xs =>
      match splitOnChar c xs with
      | [] => [[]]
      | g :: gs => if x = c then [] :: g :: gs else (x :: g) :: gs

/-- `strings.HasSuffix(s, ":")`: the last character is the port separator. -/
def endsWithColon (s : List Char) : Bool :=
  match s.getLast? with
  | some c => c = ':'
  | none => false

/-- The advertised-host computation of `Worker.Start`: when the configured
`AdvertisedHost` ends in `":"`, append the last `":"`-separated fragment of
the listener address `lis.Addr().String()` (the OS-assigned port);
otherwise keep the configured host unchanged. -/
def resolveAdvertisedHost (advertisedHost listenerAddr : List Char) :
    List Char :=
  if endsWithColon advertisedHost then
    advertisedHost ++ (splitOnChar ':' listenerAddr).getLastD []
  else
    advertisedHost

/-- The host of the node record `Worker.Start` registers with the
coordinator: `node.New(advHost, node.Worker)` stores the resolved
advertised host as the node's `Host`. -/
def startRegisteredHost (advertisedHost listenerAddr : List Char) :
    List Char :=
  resolveAdvertisedHost advertisedHost listenerAddr

/-! ## Node manager (`manager.List`, `manager.UnregisterNode`, `manager.Close`) -/

/-- Node types (`node.Master`, `node.Worker`). -/
inductive NodeType
  | master
  | worker
  deriving DecidableEq, Repr

/-- A node record (`node.Node`): identity, host, type. -/
structure GoNode where
  id : String
  host : String
  typ : NodeType
  deriving DecidableEq, Repr

/-- A raw scanned item under the `nodes/` prefix together with the outcome
of `item.Unmarshal` on it (the coordinator is a black-box KV; whether a
stored record unmarshals is environment-supplied). -/
structure RawItem where
  key : String
  unmarshalled : Except String GoNode
  deriving Repr

/-- The scan loop of `manager.List`: unmarshal each item in scan order
(the first failure aborts the whole call with an error), skip nodes whose
type differs from the requested one, and collect the rest in order. -/
def listLoop (typ : NodeType) : List RawItem → Except String (List GoNode)
  | [] => .ok []
  | it :: rest =>
      match it.unmarshalled with
      | .error e => .error ("unmarshal item " ++ it.key ++ ": " ++ e)
      | .ok n =>
          if n.typ ≠ typ then listLoop typ rest
          else (listLoop typ rest).map (fun nn => n :: nn)

/-- `manager.List`: scan the `nodes/` prefix (a scan failure is returned
as-is), then filter the unmarshalled records by the requested type. -/
def listNodes (scanResult : Except String (List RawItem)) (typ : NodeType) :
    Except String (List GoNode) :=
  match scanResult with
  | .error e => .error ("scan etcd: " ++ e)
  | .ok items => listLoop typ items

/-- Node-manager state relevant to `UnregisterNode`: the registered self
node (`nil` before `RegisterSelf` completes) and whether the liveness
ticker is running. -/
structure ManagerState where
  self : Option GoNode
  tickerActive : Bool
  deriving DecidableEq, Repr

/-- Result of `manager.UnregisterNode`: normal return with the new state,
an error return, or a runtime panic from dereferencing the nil self node. -/
inductive UnregisterResult
  | ok (post : ManagerState)
  | errRemove (msg : String)
  | panicNilSelf
  deriving DecidableEq, Repr

/-- `manager.UnregisterNode`: delete `nodes/<nid>` from the coordinator
(failure → error return); then evaluate `nid == m.self.ID` — a nil
`m.self` makes this field access panic; when the ID matches self, stop the
liveness ticker and clear `m.self`. -/
def unregisterNode (m : ManagerState) (deleteErr : Option String)
    (nid : String) : UnregisterResult :=
  match deleteErr with
  | some e => .errRemove ("failed to remove from etcd: " ++ e)
  | none =>
      match m.self with
      | none => .panicNilSelf
      | some s =>
          if nid = s.id then
            .ok { m with self := none, tickerActive := false }
          else
            .ok m

/-- A cached outbound connection together with the outcome its `Close()`
would produce (`none` = closes cleanly). -/
structure Conn where
  host : String
  closeErr : Option String
  deriving DecidableEq, Repr

/-- `manager.Close`: iterate the cached connections (`m.conns.Range`),
closing each one; the range callback returns `err == nil`, so the
iteration stops at the first close error. Returns the error variable's
final value and the hosts whose `Close()` was actually invoked. -/
def managerClose : List Conn → Option String × List String
  | [] => (none, [])
  | c :: rest =>
      match c.closeErr with
      | none =>
          let r := managerClose rest
          (r.1, c.host :: r.2)
      | some e => (some e, [c.host])

/-! ## Sample states used by the witnesses -/

/-- A worker with one registered running executor for task `j/s/0`. -/
def sampleWorker : WorkerState :=
  { runningTasks := [("j/s/0", { input := [], state := .running })]
    selfHost := "10.0.0.1:7001" }

/-- A well-formed push stream targeting task `j/s/0`, dispatching cleanly. -/
def sampleStream : PushStreamInput :=
  { header := some { taskID := "j/s/0", fromHost := "10.0.0.2:7001" }
    batches := [{ key := "k", value := "v" }]
    dispatchErr := false }

/-- The same push stream, but dispatching its batches fails. -/
def sampleStreamErr : PushStreamInput :=
  { sampleStream with dispatchErr := true }

/-- A push stream whose header names a task absent from the registry. -/
def sampleStreamAbsent : PushStreamInput :=
  { sampleStream with header := some { taskID := "j/s/9", fromHost := "x" } }

/-! ## Registry lemmas -/

theorem find?_key_filter_self {α : Type} (l : List (String × α)) (k : String) :
    (l.filter (fun p => p.1 ≠ k)).find? (fun p => p.1 = k) = none := by
  induction l with
  | nil => rfl
  | cons x xs ih =>
      by_cases hx : x.1 = k
      · simp [List.filter_cons, hx, ih]
      · simp [List.filter_cons, List.find?_cons, hx, ih]

theorem find?_key_filter_ne {α : Type} (l : List (String × α)) (k tid : String)
    (h : tid ≠ k) :
    (l.filter (fun p => p.1 ≠ k)).find? (fun p => p.1 = tid) =
      l.find? (fun p => p.1 = tid) := by
  have hkt : ¬k = tid := fun hc => h hc.symm
  induction l with
  | nil => rfl
  | cons x xs ih =>
      simp only [ne_eq, decide_not] at ih ⊢
      by_cases hx : x.1 = k
      · have hxt : ¬x.1 = tid := by
          rw [hx]
          exact hkt
        simp [List.filter_cons, List.find?_cons, hx, hxt, ih, h, hkt,
          -List.find?_filter]
      · by_cases ht : x.1 = tid
        · simp [List.filter_cons, List.find?_cons, hx, ht, h, hkt,
            -List.find?_filter]
        · simp [List.filter_cons, List.find?_cons, hx, ht, ih, h, hkt,
            -List.find?_filter]

theorem getRunningTask_remove (w : WorkerState) (k tid : String) :
    getRunningTask (removeRunningTask w k) tid =
      if tid = k then none else getRunningTask w tid := by
  unfold getRunningTask removeRunningTask
  by_cases h : tid = k
  · subst h
    simp [find?_key_filter_self]
  · rw [find?_key_filter_ne _ _ _ h]
    simp [h]

theorem getRunningTask_put (w : WorkerState) (k tid : String)
    (e : TaskExecutor) :
    getRunningTask (putRunningTask w k e) tid =
      if tid = k then some e else getRunningTask w tid := by
  unfold getRunningTask putRunningTask
  rw [List.find?_append]
  by_cases h : tid = k
  · subst h
    rw [find?_key_filter_self]
    simp [List.find?_cons]
  · have hkt : ¬k = tid := fun hc => h hc.symm
    rw [find?_key_filter_ne _ _ _ h]
    simp [List.find?_cons, hkt, h]

/-! ## Unfolding equations for `pushData` -/

theorem pushData_eq_of_found (w : WorkerState) (s : PushStreamInput)
    (term : ExecState) (h : DataHeader) (e : TaskExecutor)
    (hh : s.header = some h)
    (hfound : getRunningTask w h.taskID = some e) :
    pushData w s term =
      if s.dispatchErr then
        { outcome := .errDispatch
          post := removeRunningTask w h.taskID
          events := [.dispatchFailed, .removedEntry h.taskID] }
      else
        { outcome := .ack
          post := removeRunningTask (putRunningTask w h.taskID
            { input := e.input ++ s.batches, state := term }) h.taskID
          events := [.dispatched s.batches, .waitedTerminal term, .ackSent,
                     .removedEntry h.taskID] } := by
  simp only [pushData, hh, hfound]

theorem pushData_eq_of_absent (w : WorkerState) (s : PushStreamInput)
    (term : ExecState) (h : DataHeader)
    (hh : s.header = some h)
    (habs : getRunningTask w h.taskID = none) :
    pushData w s term =
      { outcome := .errInvalidArgument ("task not found: " ++ h.taskID)
        post := w
        events := [.taskNotFound h.taskID] } := by
  simp only [pushData, hh, habs]

/-! ## PushData theorems -/

/-- C1: for a push stream whose header names a registered task, `PushData`
returns the successful empty acknowledgement only after the receiving
executor has reached a terminal state (in every successful run the
`waitedTerminal` event strictly precedes the `ackSent` event and the waited
state is terminal), and on return the executor's entry has been removed
from the running-tasks registry. -/
theorem pushData_ack_after_terminal (w : WorkerState) (s : PushStreamInput)
    (term : ExecState) (h : DataHeader) (e : TaskExecutor)
    (hh : s.header = some h)
    (hfound : getRunningTask w h.taskID = some e)
    (hterm : term.isTerminal = true) :
    ((pushData w s term).outcome = .ack →
       ∃ i j, i < j ∧
         (pushData w s term).events.get? i = some (.waitedTerminal term) ∧
         term.isTerminal = true ∧
         (pushData w s term).events.get? j = some .ackSent) ∧
    getRunningTask (pushData w s term).post h.taskID = none := by
  rw [pushData_eq_of_found w s term h e hh hfound]
  by_cases hd : s.dispatchErr = true
  · rw [if_pos hd]
    constructor
    · intro hc
      exact absurd hc (by simp)
    · rw [getRunningTask_remove]
      simp
  · rw [if_neg hd]
    constructor
    · intro _
      exact ⟨1, 2, by omega, rfl, hterm, rfl⟩
    · rw [getRunningTask_remove]
      simp

theorem pushData_ack_after_terminal_witness :
    ((pushData sampleWorker sampleStream ExecState.succeeded).outcome =
        .ack →
       ∃ i j, i < j ∧
         (pushData sampleWorker sampleStream ExecState.succeeded).events.get?
             i = some (.waitedTerminal ExecState.succeeded) ∧
         ExecState.succeeded.isTerminal = true ∧
         (pushData sampleWorker sampleStream ExecState.succeeded).events.get?
             j = some .ackSent) ∧
    getRunningTask
        (pushData sampleWorker sampleStream ExecState.succeeded).post
        "j/s/0" = none :=
  pushData_ack_after_terminal sampleWorker sampleStream .succeeded
    { taskID := "j/s/0", fromHost := "10.0.0.2:7001" }
    { input := [], state := .running } rfl (by decide) rfl

/-- C2: a push stream whose header names a task absent from the registry
fails with `InvalidArgument` ("task not found"), leaves the worker state
unchanged (no registry entry added or removed, no row enqueued), and its
only observable action is the failed lookup. -/
theorem pushData_absent_task (w : WorkerState) (s : PushStreamInput)
    (term : ExecState) (h : DataHeader)
    (hh : s.header = some h)
    (habs : getRunningTask w h.taskID = none) :
    (pushData w s term).outcome =
        .errInvalidArgument ("task not found: " ++ h.taskID) ∧
    (pushData w s term).post = w ∧
    (pushData w s term).events = [.taskNotFound h.taskID] := by
  rw [pushData_eq_of_absent w s term h hh habs]
  exact ⟨rfl, rfl, rfl⟩

theorem pushData_absent_task_witness :
    (pushData sampleWorker sampleStreamAbsent ExecState.running).outcome =
        .errInvalidArgument ("task not found: " ++ "j/s/9") ∧
    (pushData sampleWorker sampleStreamAbsent ExecState.running).post =
        sampleWorker ∧
    (pushData sampleWorker sampleStreamAbsent ExecState.running).events =
        [.taskNotFound "j/s/9"] :=
  pushData_absent_task sampleWorker sampleStreamAbsent .running
    { taskID := "j/s/9", fromHost := "x" } rfl (by decide)

/-- C8: when the executor is found but dispatching the stream's batches
fails, `PushData` still removes the executor's registry entry (the deferred
delete runs on the error path), so the error is returned with the entry
gone and any retried push naming the same task fails with
`InvalidArgument` ("task not found"). -/
theorem pushData_dispatch_error_removes (w : WorkerState)
    (s : PushStreamInput) (term : ExecState) (h : DataHeader)
    (e : TaskExecutor)
    (hh : s.header = some h)
    (hfound : getRunningTask w h.taskID = some e)
    (hde : s.dispatchErr = true) :
    (pushData w s term).outcome = .errDispatch ∧
    getRunningTask (pushData w s term).post h.taskID = none ∧
    ∀ s2 term2, s2.header = some h →
      (pushData (pushData w s term).post s2 term2).outcome =
        .errInvalidArgument ("task not found: " ++ h.taskID) := by
  have hpost : (pushData w s term).post = removeRunningTask w h.taskID := by
    rw [pushData_eq_of_found w s term h e hh hfound, if_pos hde]
  have hgone : getRunningTask (pushData w s term).post h.taskID = none := by
    rw [hpost, getRunningTask_remove]
    simp
  refine ⟨?_, hgone, ?_⟩
  · rw [pushData_eq_of_found w s term h e hh hfound, if_pos hde]
  · intro s2 term2 hh2
    rw [pushData_eq_of_absent _ s2 term2 h hh2 hgone]

theorem pushData_dispatch_error_removes_witness :
    (pushData sampleWorker sampleStreamErr ExecState.running).outcome =
        .errDispatch ∧
    getRunningTask (pushData sampleWorker sampleStreamErr
        ExecState.running).post "j/s/0" = none ∧
    ∀ s2 term2, s2.header =
        some { taskID := "j/s/0", fromHost := "10.0.0.2:7001" } →
      (pushData (pushData sampleWorker sampleStreamErr
          ExecState.running).post s2 term2).outcome =
        .errInvalidArgument ("task not found: " ++ "j/s/0") :=
  pushData_dispatch_error_removes sampleWorker sampleStreamErr .running
    { taskID := "j/s/0", fromHost := "10.0.0.2:7001" }
    { input := [], state := .running } rfl (by decide) rfl

/-! ## CreateTasks helper lemmas -/

theorem taskIDPath_inj_right (j s p1 p2 : String)
    (h : taskIDPath j s p1 = taskIDPath j s p2) : p1 = p2 := by
  unfold taskIDPath at h
  have hd := congrArg String.data h
  simp only [String.data_append] at hd
  exact String.ext (List.append_cancel_left hd)

theorem createTask_ok_state (w : WorkerState) (opt : WorkerOpts)
    (env : TaskEnv) (req : CreateTasksRequest) (pid : String)
    (w2 : WorkerState)
    (hok : createTask w opt env req pid = .ok w2) :
    w2 = putRunningTask w (taskIDPath req.jobID req.stageName pid)
           newExecutor := by
  unfold createTask at hok
  cases hp : env.persistErr with
  | some e => rw [hp] at hok; exact absurd hok (by simp)
  | none =>
      rw [hp] at hok
      cases hb : buildSinks w opt env req.jobID req.outputStageName
          req.partitionToHost with
      | error e => rw [hb] at hok; exact absurd hok (by simp)
      | ok sinks =>
          rw [hb] at hok
          cases hx : env.executorCtorErr with
          | some e =>
              rw [hx] at hok
              cases hr : env.reportFailureErr with
              | some re => rw [hr] at hok; exact absurd hok (by simp)
              | none => rw [hr] at hok; exact absurd hok (by simp)
          | none =>
              rw [hx] at hok
              exact (Except.ok.injEq _ _ ▸ hok.symm)

theorem createTasksLoop_mono (opt : WorkerOpts) (pp : String → TaskEnv)
    (req : CreateTasksRequest) (pids : List String) (w : WorkerState)
    (tid : String)
    (hsome : (getRunningTask w tid).isSome) :
    (getRunningTask (createTasksLoop opt pp req w pids).2 tid).isSome := by
  induction pids generalizing w with
  | nil => exact hsome
  | cons pid rest ih =>
      simp only [createTasksLoop]
      cases hc : createTask w opt (pp pid) req pid with
      | ok w2 =>
          apply ih
          rw [createTask_ok_state w opt (pp pid) req pid w2 hc,
            getRunningTask_put]
          by_cases ht : tid = taskIDPath req.jobID req.stageName pid
          · rw [if_pos ht]; rfl
          · rw [if_neg ht]; exact hsome
      | error e => exact ih w hsome

theorem createTasksLoop_lookup_source (opt : WorkerOpts)
    (pp : String → TaskEnv) (req : CreateTasksRequest) (pids : List String)
    (w : WorkerState) (tid : String)
    (hsome : (getRunningTask (createTasksLoop opt pp req w pids).2
                tid).isSome) :
    (getRunningTask w tid).isSome ∨
      ∃ pid ∈ pids, tid = taskIDPath req.jobID req.stageName pid := by
  induction pids generalizing w with
  | nil => exact Or.inl hsome
  | cons pid rest ih =>
      rw [createTasksLoop] at hsome
      cases hc : createTask w opt (pp pid) req pid with
      | ok w2 =>
          rw [hc] at hsome
          rcases ih w2 hsome with h2 | ⟨pid2, hm, he⟩
          · rw [createTask_ok_state w opt (pp pid) req pid w2 hc,
              getRunningTask_put] at h2
            by_cases ht : tid = taskIDPath req.jobID req.stageName pid
            · exact Or.inr ⟨pid, List.mem_cons_self pid rest, ht⟩
            · rw [if_neg ht] at h2
              exact Or.inl h2
          · exact Or.inr ⟨pid2, List.mem_cons_of_mem _ hm, he⟩
      | error e =>
          rw [hc] at hsome
          rcases ih w hsome with h2 | ⟨pid2, hm, he⟩
          · exact Or.inl h2
          · exact Or.inr ⟨pid2, List.mem_cons_of_mem _ hm, he⟩

theorem createTasksLoop_none_iff (opt : WorkerOpts) (pp : String → TaskEnv)
    (req : CreateTasksRequest) (pids : List String) (w : WorkerState)
    (hnodup : pids.Nodup)
    (hfresh : ∀ pid ∈ pids,
      getRunningTask w (taskIDPath req.jobID req.stageName pid) = none) :
    ((createTasksLoop opt pp req w pids).1 = none ↔
      ∀ pid ∈ pids,
        (getRunningTask (createTasksLoop opt pp req w pids).2
          (taskIDPath req.jobID req.stageName pid)).isSome) := by
  induction pids generalizing w with
  | nil => simp [createTasksLoop]
  | cons pid rest ih =>
      have hpidrest : pid ∉ rest := (List.nodup_cons.mp hnodup).1
      have hnd : rest.Nodup := (List.nodup_cons.mp hnodup).2
      simp only [createTasksLoop]
      cases hc : createTask w opt (pp pid) req pid with
      | ok w2 =>
          have hw2 := createTask_ok_state w opt (pp pid) req pid w2 hc
          have hfresh2 : ∀ p ∈ rest,
              getRunningTask w2 (taskIDPath req.jobID req.stageName p) =
                none := by
            intro p hp
            have hne : taskIDPath req.jobID req.stageName p ≠
                taskIDPath req.jobID req.stageName pid := by
              intro hcontra
              exact hpidrest (taskIDPath_inj_right _ _ _ _ hcontra ▸ hp)
            rw [hw2, getRunningTask_put, if_neg hne]
            exact hfresh p (List.mem_cons_of_mem _ hp)
          have hrec := ih w2 hnd hfresh2
          constructor
          · intro hnone p hp
            rcases List.mem_cons.mp hp with he | hr
            · subst he
              apply createTasksLoop_mono
              rw [hw2, getRunningTask_put, if_pos rfl]
              rfl
            · exact hrec.mp hnone p hr
          · intro hall
            exact hrec.mpr (fun p hp => hall p (List.mem_cons_of_mem _ hp))
      | error e =>
          constructor
          · intro hnone
            exact absurd hnone (by simp)
          · intro hall
            have hp := hall pid (List.mem_cons_self pid rest)
            rcases createTasksLoop_lookup_source opt pp req rest w _ hp with
              h2 | ⟨pid2, hm, he⟩
            · rw [hfresh pid (List.mem_cons_self pid rest)] at h2
              exact absurd h2 (by simp)
            · exact absurd (taskIDPath_inj_right _ _ _ _ he ▸ hm)
                hpidrest

/-! ## CreateTasks theorems -/

/-- A request whose stage and broadcasts parse cleanly and whose partition
environments all succeed; used by the witnesses. -/
def sampleReq : CreateTasksRequest :=
  { jobID := "j"
    stageName := "s"
    outputStageName := "s2"
    partitionIDs := ["p0", "p1"]
    partitionToHost := [] }

/-- An all-success environment (coordinator, dialing, executor
construction all succeed). -/
def envAllOk : CreateEnv :=
  { stageParseErr := none
    broadcastsErr := none
    perPartition := fun _ =>
      { persistErr := none
        dialErr := fun _ _ => none
        executorCtorErr := none
        reportFailureErr := none } }

/-- A worker with an empty running-tasks registry. -/
def emptyWorker : WorkerState :=
  { runningTasks := [], selfHost := "10.0.0.1:7001" }

/-- Sample worker options. -/
def sampleOpts : WorkerOpts :=
  { outputBufferLength := 1000 }

/-- C3: `CreateTasks` returns success iff every partition ID of the request
ended with its executor recorded in the running-tasks registry (its task
persisted and its executor constructed), and the handler never removes a
registry entry — partitions whose executors already started are not
aborted when some other partition fails. -/
theorem createTasks_success_iff (w : WorkerState) (opt : WorkerOpts)
    (env : CreateEnv) (req : CreateTasksRequest)
    (hparse : env.stageParseErr = none)
    (hbc : env.broadcastsErr = none)
    (hnodup : req.partitionIDs.Nodup)
    (hfresh : ∀ pid ∈ req.partitionIDs,
      getRunningTask w (taskIDPath req.jobID req.stageName pid) = none) :
    ((createTasks w opt env req).1 = none ↔
      ∀ pid ∈ req.partitionIDs,
        (getRunningTask (createTasks w opt env req).2
          (taskIDPath req.jobID req.stageName pid)).isSome) ∧
    (∀ tid, (getRunningTask w tid).isSome →
      (getRunningTask (createTasks w opt env req).2 tid).isSome) := by
  have heq : createTasks w opt env req =
      createTasksLoop opt env.perPartition req w req.partitionIDs := by
    unfold createTasks
    rw [hparse, hbc]
  rw [heq]
  exact ⟨createTasksLoop_none_iff opt env.perPartition req req.partitionIDs w
    hnodup hfresh,
    fun tid h => createTasksLoop_mono opt env.perPartition req
      req.partitionIDs w tid h⟩

theorem createTasks_success_iff_witness :
    ((createTasks emptyWorker sampleOpts envAllOk sampleReq).1 = none ↔
      ∀ pid ∈ sampleReq.partitionIDs,
        (getRunningTask (createTasks emptyWorker sampleOpts envAllOk
          sampleReq).2
          (taskIDPath sampleReq.jobID sampleReq.stageName pid)).isSome) ∧
    (∀ tid, (getRunningTask emptyWorker tid).isSome →
      (getRunningTask (createTasks emptyWorker sampleOpts envAllOk
        sampleReq).2 tid).isSome) :=
  createTasks_success_iff emptyWorker sampleOpts envAllOk sampleReq rfl rfl
    (by decide) (by decide)

/-- Environment where persisting the task record fails. -/
def envPersistFail : TaskEnv :=
  { persistErr := some "etcd down"
    dialErr := fun _ _ => none
    executorCtorErr := none
    reportFailureErr := none }

/-- Environment where dialing the remote push stream fails. -/
def envDialFail : TaskEnv :=
  { persistErr := none
    dialErr := fun _ _ => some "dial timeout"
    executorCtorErr := none
    reportFailureErr := none }

/-- Environment where constructing the executor fails (the failure report
itself succeeds). -/
def envExecCtorFail : TaskEnv :=
  { persistErr := none
    dialErr := fun _ _ => none
    executorCtorErr := some "unknown function"
    reportFailureErr := none }

/-- A request with one remote downstream destination. -/
def sampleReqRemote : CreateTasksRequest :=
  { sampleReq with partitionToHost := [("p0", "10.0.0.2:7001")] }

/-- C6 counterexample: when `NewTaskExecutor` fails, `createTask` returns
the error wrapped with `errors.Wrap` and no gRPC status code, so it
surfaces as `Unknown`, not `Internal` — refuting the claim that an
executor-construction failure carries the `Internal` code. -/
theorem createTask_exec_ctor_not_internal :
    createTaskErrCode
        (createTask emptyWorker sampleOpts envExecCtorFail sampleReq "p0") =
      some GrpcCode.unknown ∧
    some GrpcCode.unknown ≠ some GrpcCode.internal :=
  ⟨rfl, by decide⟩

/-- C6 (amended): a failure to persist the task record and a failure to
construct the output writer both carry the `Internal` code; a failure to
construct the executor is returned as a plain wrapped error without a
status code, surfacing as `Unknown`. -/
theorem createTask_error_codes (w : WorkerState) (opt : WorkerOpts)
    (env : TaskEnv) (req : CreateTasksRequest) (pid : String) :
    (∀ e, env.persistErr = some e →
      createTaskErrCode (createTask w opt env req pid) =
        some GrpcCode.internal) ∧
    (∀ e, env.persistErr = none →
      buildSinks w opt env req.jobID req.outputStageName
          req.partitionToHost = .error e →
      createTaskErrCode (createTask w opt env req pid) =
        some GrpcCode.internal) ∧
    (∀ e sinks, env.persistErr = none →
      buildSinks w opt env req.jobID req.outputStageName
          req.partitionToHost = .ok sinks →
      env.executorCtorErr = some e →
      env.reportFailureErr = none →
      createTaskErrCode (createTask w opt env req pid) =
        some GrpcCode.unknown) := by
  refine ⟨?_, ?_, ?_⟩
  · intro e hp
    unfold createTask
    rw [hp]
    rfl
  · intro e hp hb
    unfold createTask
    rw [hp, hb]
    rfl
  · intro e sinks hp hb hx hr
    unfold createTask
    rw [hp, hb, hx, hr]
    rfl

theorem createTask_error_codes_witness :
    createTaskErrCode
        (createTask emptyWorker sampleOpts envPersistFail sampleReq "p0") =
      some GrpcCode.internal ∧
    createTaskErrCode
        (createTask emptyWorker sampleOpts envDialFail sampleReqRemote
          "p0") =
      some GrpcCode.internal ∧
    createTaskErrCode
        (createTask emptyWorker sampleOpts
          { envExecCtorFail with executorCtorErr := some "no ctor" }
          sampleReq "p0") =
      some GrpcCode.unknown :=
  ⟨(createTask_error_codes emptyWorker sampleOpts envPersistFail sampleReq
      "p0").1 "etcd down" rfl,
   (createTask_error_codes emptyWorker sampleOpts envDialFail
      sampleReqRemote "p0").2.1 "dial timeout" rfl rfl,
   (createTask_error_codes emptyWorker sampleOpts
      { envExecCtorFail with executorCtorErr := some "no ctor" }
      sampleReq "p0").2.2 "no ctor" [] rfl rfl rfl rfl⟩

/-- The sink the claim predicts for an entry `(id, host)` of the partition
map: a local pipe when the host is this worker and the downstream task is
registered locally, else a push stream buffered at
`Output.BufferLength`. -/
def expectedSink (w : WorkerState) (opt : WorkerOpts)
    (jobID outputStage id host : String) : Sink :=
  if host = w.selfHost ∧
      (getRunningTask w (taskIDPath jobID outputStage id)).isSome then
    Sink.localPipe (taskIDPath jobID outputStage id)
  else
    Sink.bufferedPushStream host (taskIDPath jobID outputStage id)
      opt.outputBufferLength

theorem buildSinks_ok_map (w : WorkerState) (opt : WorkerOpts)
    (env : TaskEnv) (jobID outputStage : String)
    (entries : List (String × String)) (sinks : List (String × Sink))
    (hok : buildSinks w opt env jobID outputStage entries = .ok sinks) :
    sinks = entries.map (fun e =>
      (e.1, expectedSink w opt jobID outputStage e.1 e.2)) := by
  induction entries generalizing sinks with
  | nil =>
      rw [buildSinks] at hok
      injection hok with h
      exact h.symm
  | cons entry rest ih =>
      obtain ⟨eid, ehost⟩ := entry
      simp only [buildSinks] at hok
      by_cases hcond : ehost = w.selfHost ∧
          (getRunningTask w (taskIDPath jobID outputStage eid)).isSome
      · rw [if_pos hcond] at hok
        cases hrest : buildSinks w opt env jobID outputStage rest with
        | error e =>
            rw [hrest] at hok
            exact absurd hok (by simp [Except.map])
        | ok restS =>
            rw [hrest] at hok
            simp only [Except.map] at hok
            injection hok with h
            rw [← h, List.map_cons, ih restS hrest]
            unfold expectedSink
            rw [if_pos hcond]
      · rw [if_neg hcond] at hok
        cases hd : env.dialErr ehost (taskIDPath jobID outputStage eid) with
        | some e =>
            rw [hd] at hok
            exact absurd hok (by simp)
        | none =>
            rw [hd] at hok
            cases hrest : buildSinks w opt env jobID outputStage rest with
            | error e =>
                rw [hrest] at hok
                exact absurd hok (by simp [Except.map])
            | ok restS =>
                rw [hrest] at hok
                simp only [Except.map] at hok
                injection hok with h
                rw [← h, List.map_cons, ih restS hrest]
                unfold expectedSink
                rw [if_neg hcond]

theorem find?_expected_of_mem (w : WorkerState) (opt : WorkerOpts)
    (jobID outputStage : String) (entries : List (String × String))
    (pid phost : String)
    (hnodup : (entries.map Prod.fst).Nodup)
    (hmem : (pid, phost) ∈ entries) :
    (entries.map (fun e =>
        (e.1, expectedSink w opt jobID outputStage e.1 e.2))).find?
      (fun p => p.1 = pid) =
      some (pid, expectedSink w opt jobID outputStage pid phost) := by
  induction entries with
  | nil => cases hmem
  | cons entry rest ih =>
      obtain ⟨eid, ehost⟩ := entry
      rcases List.mem_cons.mp hmem with he | hr
      · injection he with h1 h2
        subst h1
        subst h2
        simp [List.map_cons, List.find?_cons]
      · have hne : ¬eid = pid := by
          intro hcontra
          subst hcontra
          have hin : eid ∈ rest.map Prod.fst := by
            exact List.mem_map_of_mem Prod.fst hr
          exact (List.nodup_cons.mp hnodup).1 hin
        rw [List.map_cons, List.find?_cons]
        have hd : (decide ((eid, expectedSink w opt jobID outputStage eid
            ehost).1 = pid)) = false := by
          simp [hne]
        rw [hd]
        exact ih (List.nodup_cons.mp hnodup).2 hr

/-- C4: whenever `newOutputWriter` succeeds, each entry `(id, host)` of the
request's partition map is mapped to a local pipe into the co-located
downstream executor's input when `host` is this worker's advertised host
and the downstream task is registered, and otherwise to a remote push
stream buffered at `Output.BufferLength`. -/
theorem newOutputWriter_sink_shape (w : WorkerState) (opt : WorkerOpts)
    (env : TaskEnv) (jobID outputStage : String)
    (entries : List (String × String)) (sinks : List (String × Sink))
    (id host : String)
    (hok : newOutputWriter w opt env jobID outputStage entries = .ok sinks)
    (hnodup : (entries.map Prod.fst).Nodup)
    (hmem : (id, host) ∈ entries) :
    sinks.find? (fun p => p.1 = id) =
      some (id, expectedSink w opt jobID outputStage id host) := by
  unfold newOutputWriter at hok
  rw [buildSinks_ok_map w opt env jobID outputStage entries sinks hok]
  exact find?_expected_of_mem w opt jobID outputStage entries id host
    hnodup hmem

/-- A worker that already runs the downstream task `j/s2/p1` locally. -/
def workerWithDownstream : WorkerState :=
  { runningTasks := [("j/s2/p1", { input := [], state := .running })]
    selfHost := "10.0.0.1:7001" }

theorem newOutputWriter_sink_shape_witness :
    ([("p1", Sink.localPipe "j/s2/p1"),
      ("p2", Sink.bufferedPushStream "10.0.0.3:7001" "j/s2/p2"
        1000)].find? (fun p => p.1 = "p1")) =
      some ("p1", expectedSink workerWithDownstream sampleOpts "j" "s2"
        "p1" "10.0.0.1:7001") :=
  newOutputWriter_sink_shape workerWithDownstream sampleOpts
    (envAllOk.perPartition "x") "j" "s2"
    [("p1", "10.0.0.1:7001"), ("p2", "10.0.0.3:7001")]
    [("p1", Sink.localPipe "j/s2/p1"),
     ("p2", Sink.bufferedPushStream "10.0.0.3:7001" "j/s2/p2" 1000)]
    "p1" "10.0.0.1:7001" rfl (by decide) (by decide)

/-! ## Advertised-host lemmas and theorem -/

theorem splitOnChar_ne_nil (c : Char) (s : List Char) :
    splitOnChar c s ≠ [] := by
  cases s with
  | nil => simp [splitOnChar]
  | cons x xs =>
      simp only [splitOnChar]
      cases hsp : splitOnChar c xs with
      | nil => simp
      | cons g gs =>
          by_cases hx : x = c
          · simp [hx]
          · simp [hx]

theorem splitOnChar_of_not_mem (c : Char) (s : List Char) (h : c ∉ s) :
    splitOnChar c s = [s] := by
  induction s with
  | nil => rfl
  | cons x xs ih =>
      have hx : ¬x = c := fun hc => h (hc ▸ List.mem_cons_self x xs)
      have hxs : c ∉ xs := fun hc => h (List.mem_cons_of_mem _ hc)
      simp only [splitOnChar, ih hxs]
      simp [hx]

theorem splitOnChar_length_of_mem (c : Char) (s : List Char) (h : c ∈ s) :
    2 ≤ (splitOnChar c s).length := by
  induction s with
  | nil => cases h
  | cons x xs ih =>
      simp only [splitOnChar]
      cases hsp : splitOnChar c xs with
      | nil => exact absurd hsp (splitOnChar_ne_nil c xs)
      | cons g gs =>
          by_cases hx : x = c
          · simp [hx]
          · have hxs : c ∈ xs := by
              rcases List.mem_cons.mp h with he | hr
              · exact absurd he.symm hx
              · exact hr
            have := ih hxs
            rw [hsp] at this
            simp only [List.length_cons] at this ⊢
            simp [hx]
            omega

theorem splitOnChar_getLast_sep (c : Char) (pre port : List Char)
    (h : c ∉ port) :
    (splitOnChar c (pre ++ c :: port)).getLast? = some port := by
  induction pre with
  | nil =>
      simp only [List.nil_append, splitOnChar,
        splitOnChar_of_not_mem c port h]
      simp
  | cons x xs ih =>
      simp only [List.cons_append, splitOnChar]
      cases hsp : splitOnChar c (xs ++ c :: port) with
      | nil => exact absurd hsp (splitOnChar_ne_nil _ _)
      | cons g gs =>
          rw [hsp] at ih
          have hlen : 2 ≤ (g :: gs).length := by
            rw [← hsp]
            exact splitOnChar_length_of_mem c _ (by simp)
          cases gs with
          | nil => simp at hlen
          | cons g2 gs2 =>
              show (if x = c then [] :: g :: g2 :: gs2
                else (x :: g) :: g2 :: gs2).getLast? = some port
              by_cases hx : x = c
              · rw [if_pos hx, List.getLast?_cons_cons]
                exact ih
              · rw [if_neg hx, List.getLast?_cons_cons]
                rw [List.getLast?_cons_cons] at ih
                exact ih

/-- C5: when the configured `AdvertisedHost` ends in the port separator
`':'`, the host registered by `Start` is the configured host with the
OS-assigned listener port (the text after the last `':'` of the listener
address) appended; when it does not end in `':'`, the registered host is
the configured host unchanged. -/
theorem start_registered_host_spec (adv pre port addr : List Char) :
    (endsWithColon adv = true → ':' ∉ port →
      startRegisteredHost adv (pre ++ ':' :: port) = adv ++ port) ∧
    (endsWithColon adv = false → startRegisteredHost adv addr = adv) := by
  constructor
  · intro h1 h2
    unfold startRegisteredHost resolveAdvertisedHost
    rw [if_pos h1, List.getLastD_eq_getLast?,
      splitOnChar_getLast_sep ':' pre port h2]
    rfl
  · intro h1
    unfold startRegisteredHost resolveAdvertisedHost
    rw [if_neg (by rw [h1]; exact Bool.false_ne_true)]

theorem start_registered_host_spec_witness :
    startRegisteredHost "10.0.0.1:".toList
        ("[::]".toList ++ ':' :: "7001".toList) =
      "10.0.0.1:".toList ++ "7001".toList ∧
    startRegisteredHost "10.0.0.1:7001".toList "[::]:9999".toList =
      "10.0.0.1:7001".toList :=
  ⟨(start_registered_host_spec "10.0.0.1:".toList "[::]".toList
      "7001".toList "[::]:9999".toList).1 (by decide) (by decide),
   (start_registered_host_spec "10.0.0.1:7001".toList "[::]".toList
      "7001".toList "[::]:9999".toList).2 (by decide)⟩

/-! ## Node-manager theorems -/

theorem managerClose_all_ok (conns : List Conn)
    (h : ∀ c ∈ conns, c.closeErr = none) :
    managerClose conns = (none, conns.map Conn.host) := by
  induction conns with
  | nil => rfl
  | cons c rest ih =>
      have hc := h c (List.mem_cons_self c rest)
      simp only [managerClose, hc, List.map_cons]
      rw [ih (fun x hx => h x (List.mem_cons_of_mem _ hx))]

theorem managerClose_first_err (pre : List Conn) (c : Conn)
    (post : List Conn) (e : String)
    (hpre : ∀ x ∈ pre, x.closeErr = none)
    (hc : c.closeErr = some e) :
    managerClose (pre ++ c :: post) =
      (some e, (pre ++ [c]).map Conn.host) := by
  induction pre with
  | nil =>
      simp only [List.nil_append, managerClose, hc, List.map_cons,
        List.map_nil]
  | cons x xs ih =>
      have hx := hpre x (List.mem_cons_self x xs)
      simp only [List.cons_append, managerClose, hx, List.map_cons,
        List.append_eq]
      rw [ih (fun y hy => hpre y (List.mem_cons_of_mem _ hy))]

/-- C7 counterexample: with two cached connections where the first one's
`Close` fails, `manager.Close` returns the first error but never invokes
`Close` on the second cached channel — refuting "closes all cached
channels". -/
theorem managerClose_skips_after_error :
    managerClose
        [{ host := "hostA", closeErr := some "close failed" },
         { host := "hostB", closeErr := none }] =
      (some "close failed", ["hostA"]) ∧
    "hostB" ∉ (managerClose
        [{ host := "hostA", closeErr := some "close failed" },
         { host := "hostB", closeErr := none }]).2 :=
  ⟨rfl, by decide⟩

/-- C7 (amended): `manager.Close` closes the cached channels in iteration
order only up to and including the first channel whose close fails,
returning that first error (later channels are left unclosed); when every
close succeeds it closes all cached channels and returns nil. -/
theorem managerClose_spec (conns : List Conn) :
    ((∀ c ∈ conns, c.closeErr = none) →
      managerClose conns = (none, conns.map Conn.host)) ∧
    (∀ pre c post e, conns = pre ++ c :: post →
      (∀ x ∈ pre, x.closeErr = none) → c.closeErr = some e →
      managerClose conns = (some e, (pre ++ [c]).map Conn.host)) :=
  ⟨managerClose_all_ok conns,
   fun pre c post e hconns hpre hc =>
     hconns ▸ managerClose_first_err pre c post e hpre hc⟩

theorem managerClose_spec_witness :
    managerClose [{ host := "hostA", closeErr := none },
                  { host := "hostB", closeErr := none }] =
      (none, ["hostA", "hostB"]) ∧
    managerClose [{ host := "hostC", closeErr := none },
                  { host := "hostD", closeErr := some "conn reset" },
                  { host := "hostE", closeErr := none }] =
      (some "conn reset", ["hostC", "hostD"]) :=
  ⟨(managerClose_spec _).1 (by decide),
   (managerClose_spec _).2 [{ host := "hostC", closeErr := none }]
     { host := "hostD", closeErr := some "conn reset" }
     [{ host := "hostE", closeErr := none }] "conn reset" rfl
     (by decide) rfl⟩

/-- C9: calling `UnregisterNode` before `RegisterSelf` has completed — so
the self node is still nil — panics on the nil dereference `m.self.ID`
instead of returning an error (whatever the node ID argument is, provided
the coordinator delete itself succeeded). -/
theorem unregisterNode_nil_self_panics (m : ManagerState) (nid : String)
    (h : m.self = none) :
    unregisterNode m none nid = .panicNilSelf := by
  simp only [unregisterNode, h]

theorem unregisterNode_nil_self_panics_witness :
    unregisterNode { self := none, tickerActive := false } none
      "node-1" = .panicNilSelf :=
  unregisterNode_nil_self_panics { self := none, tickerActive := false }
    "node-1" rfl

theorem listLoop_error_of_bad (typ : NodeType) (items : List RawItem)
    (h : ∃ it ∈ items, ∃ e, it.unmarshalled = .error e) :
    ∃ msg, listLoop typ items = .error msg := by
  induction items with
  | nil =>
      rcases h with ⟨it, hm, _⟩
      cases hm
  | cons it rest ih =>
      cases hu : it.unmarshalled with
      | error e =>
          exact ⟨"unmarshal item " ++ it.key ++ ": " ++ e,
            by simp only [listLoop, hu]⟩
      | ok n =>
          have hrest : ∃ it2 ∈ rest, ∃ e, it2.unmarshalled = .error e := by
            rcases h with ⟨it2, hm, e2, he2⟩
            rcases List.mem_cons.mp hm with heq | hr
            · rw [heq, hu] at he2
              exact absurd he2 (by simp)
            · exact ⟨it2, hr, e2, he2⟩
          obtain ⟨msg, hmsg⟩ := ih hrest
          refine ⟨msg, ?_⟩
          simp only [listLoop, hu]
          by_cases ht : n.typ ≠ typ
          · rw [if_pos ht]
            exact hmsg
          · rw [if_neg ht, hmsg]
            rfl

theorem listLoop_ok_of_good (typ : NodeType) (items : List RawItem)
    (h : ∀ it ∈ items, ∃ n, it.unmarshalled = .ok n) :
    listLoop typ items = .ok (items.filterMap (fun it =>
      match it.unmarshalled with
      | .ok n => if n.typ = typ then some n else none
      | .error _ => none)) := by
  induction items with
  | nil => rfl
  | cons it rest ih =>
      obtain ⟨n, hn⟩ := h it (List.mem_cons_self it rest)
      have ihr := ih (fun x hx => h x (List.mem_cons_of_mem _ hx))
      simp only [listLoop, hn, List.filterMap_cons]
      by_cases ht : n.typ = typ
      · rw [if_neg (not_not_intro ht), if_pos ht, ihr]
        rfl
      · rw [if_pos ht, if_neg ht]
        exact ihr

/-- C10: `manager.List` fails — and therefore reports no nodes at all —
whenever any single record under the `nodes/` prefix fails to unmarshal,
including records of other node types; when every record unmarshals, it
returns exactly the scanned nodes whose type equals the requested one, in
scan order. -/
theorem listNodes_spec (items : List RawItem) (typ : NodeType) :
    ((∃ it ∈ items, ∃ e, it.unmarshalled = .error e) →
      ∃ msg, listNodes (.ok items) typ = .error msg) ∧
    ((∀ it ∈ items, ∃ n, it.unmarshalled = .ok n) →
      listNodes (.ok items) typ = .ok (items.filterMap (fun it =>
        match it.unmarshalled with
        | .ok n => if n.typ = typ then some n else none
        | .error _ => none))) :=
  ⟨fun h => listLoop_error_of_bad typ items h,
   fun h => listLoop_ok_of_good typ items h⟩

/-- A scanned record of a master node. -/
def goodMasterItem : RawItem :=
  { key := "nodes/m1"
    unmarshalled := .ok { id := "m1", host := "hm", typ := .master } }

/-- A scanned record of a worker node. -/
def goodWorkerItem : RawItem :=
  { key := "nodes/w1"
    unmarshalled := .ok { id := "w1", host := "hw", typ := .worker } }

/-- A scanned record that fails to unmarshal. -/
def badItem : RawItem :=
  { key := "nodes/x", unmarshalled := .error "bad json" }

theorem listNodes_spec_witness :
    (∃ msg, listNodes (.ok [goodMasterItem, badItem, goodWorkerItem])
      NodeType.worker = .error msg) ∧
    listNodes (.ok [goodMasterItem, goodWorkerItem]) NodeType.worker =
      .ok [{ id := "w1", host := "hw", typ := .worker }] :=
  ⟨(listNodes_spec [goodMasterItem, badItem, goodWorkerItem]
      NodeType.worker).1
      ⟨badItem, List.mem_cons_of_mem _ (List.mem_cons_self _ _),
        "bad json", rfl⟩,
   (listNodes_spec [goodMasterItem, goodWorkerItem] NodeType.worker).2
      (by
        intro it hit
        rcases List.mem_cons.mp hit with h1 | h2
        · exact ⟨{ id := "m1", host := "hm", typ := .master },
            by rw [h1]; rfl⟩
        · rcases List.mem_cons.mp h2 with h3 | h4
          · exact ⟨{ id := "w1", host := "hw", typ := .worker },
              by rw [h3]; rfl⟩
          · cases h4)⟩

end Lrmr
